import Mathlib

/-!
Verification of the swag-validator request-validation middleware.

The repository's implementation file (the middleware that compiles swagger
endpoint declarations into JSON schemas, validates the path/query/body of an
inbound request and rejects with HTTP 400 on violations) is not present under
src/; only its test suite (src/swag-validator_test.go), go.mod and a sample
server are.  Following the rules for missing code, the SchemaBuilder,
RequestExtractor, Validator, ErrorTranslator and Dispatcher below are
modelled from the specification (spec.md sections 3, 4 and 6), and wherever
the test suite in src/ pins a concrete observable behaviour the model follows
the tests (which are authoritative source code of this repository).

Concretely test-pinned behaviours:
- an empty string passes any `format` constraint (every test request carries
  `format_str` set to `""` and still expects HTTP 200);
- a JSON `null` value produces no violations at all (every test request
  carries `format_str_arr` set to `null` and still expects HTTP 200);
- `required` checks key presence only (`nested.foo` is required and is always
  sent as `""`, expecting HTTP 200);
- for an array field, the scalar-style constraints declared at the field are
  moved onto the elements, with the quirk that an `enum` list is narrowed to
  only its LAST declared value (test "String in an array does not match
  enumeration" expects the message `... must be one of the following: "Bar"`
  for the declared enum `Foo,Bar`, and the passing companion test uses
  `["Bar"]`, not `["Foo"]`).
-/

namespace SwagValidator

/-! Modelled from the spec: "A decoded request value that may be
object/array/string/number/boolean/null at any tree position maps to a
tagged-variant value type with explicit kind discrimination" (§9).  The
repository's tests exercise only integer numbers, so numbers are carried as
`Int`.  Mutual lists are used so that validation is structurally recursive. -/
mutual
inductive JValue where
  | null
  | bool (b : Bool)
  | int (n : Int)
  | str (s : String)
  | arr (xs : JList)
  | obj (fs : JFields)
inductive JList where
  | nil
  | cons (v : JValue) (rest : JList)
inductive JFields where
  | nil
  | cons (name : String) (v : JValue) (rest : JFields)
end

/-- Number of elements of a JSON array. -/
def JList.length : JList → Nat
  | .nil => 0
  | .cons _ rest => 1 + rest.length

/-- Zero-based element access into a JSON array. -/
def JList.get? : JList → Nat → Option JValue
  | .nil, _ => none
  | .cons v _, 0 => some v
  | .cons _ rest, n + 1 => rest.get? n

/-- First binding of a key in a JSON object (Go's decoded objects expose one
value per key). -/
def lookupField : JFields → String → Option JValue
  | .nil, _ => none
  | .cons k v rest, n => if k = n then some v else lookupField rest n

/-- The JSON type name of a value, as reported in type-mismatch messages. -/
def typeName : JValue → String
  | .null => "null"
  | .bool _ => "boolean"
  | .int _ => "integer"
  | .str _ => "string"
  | .arr _ => "array"
  | .obj _ => "object"

/-- A segment of a field path: a named object property or a zero-based array
index ("Nested object segments join with `.`; array elements append a
zero-based numeric segment", spec §4.5). -/
inductive Seg where
  | field (name : String)
  | index (i : Nat)
deriving DecidableEq, Repr

/-- The raw-violation keywords of the fixed translation table of spec §4.5,
with their keyword parameters ("bounds, enum set, pattern text", spec §3). -/
inductive Keyword where
  | typeMismatch (expected actual : String)
  | format (fmt : String)
  | minLength (k : Nat)
  | maxLength (k : Nat)
  | pattern (p : String)
  | enum (allowed : List String)
  | minimum (m : Int) (exclusive : Bool)
  | maximum (m : Int) (exclusive : Bool)
  | required
deriving DecidableEq, Repr

/-- Modelled from the spec: "RawViolation: field path (root-relative, no
location prefix), keyword, ... keyword parameters" (§3). -/
structure RawViolation where
  path : List Seg
  keyword : Keyword
deriving DecidableEq, Repr

/-- One token of an anchored regular expression: a literal character or the
digit class `\d`.  The repository declares exactly one pattern,
`^test\d$`, so the embedding carries anchored token sequences instead of a
full regex engine. -/
inductive PatternTok where
  | lit (c : Char)
  | digit
deriving DecidableEq, Repr

/-- Whether one pattern token matches one character. -/
def patTokMatches : PatternTok → Char → Bool
  | .lit c, d => c = d
  | .digit, d => d.isDigit

/-- Anchored matching: the token list must consume the whole character list. -/
def patMatchesChars : List PatternTok → List Char → Bool
  | [], [] => true
  | t :: ts, c :: cs => patTokMatches t c && patMatchesChars ts cs
  | _, _ => false

/-- Whether an anchored pattern matches a whole string. -/
def patMatches (p : List PatternTok) (s : String) : Bool :=
  patMatchesChars p s.data

/-- The source text of one pattern token, used in the violation message. -/
def renderPatternTok : PatternTok → String
  | .lit c => String.singleton c
  | .digit => "\\d"

/-- The source text of an anchored pattern, e.g. `^test\d$`. -/
def renderPattern (p : List PatternTok) : String :=
  "^" ++ String.join (p.map renderPatternTok) ++ "$"

/-- Whether a character is a hexadecimal digit (either case). -/
def isHexChar (c : Char) : Bool :=
  c.isDigit || (97 ≤ c.toNat && c.toNat ≤ 102) || (65 ≤ c.toNat && c.toNat ≤ 70)

/-- Split a character list on the dash character (code 45). -/
def splitDash : List Char → List (List Char)
  | [] => [[]]
  | c :: rest =>
    if c.toNat = 45 then [] :: splitDash rest
    else
      match splitDash rest with
      | [] => [[c]]
      | g :: gs => (c :: g) :: gs

/-- The canonical 8-4-4-4-12 hexadecimal UUID shape. -/
def isUUID (s : String) : Bool :=
  let parts := splitDash s.data
  parts.map List.length = [8, 4, 4, 4, 12] && parts.all (fun p => p.all isHexChar)

/-- Modelled from the spec: the format checker behind the `format` keyword of
§4.5.  The repository's tests pin that an empty string passes the `uuid`
format (every test body carries `format_str = ""` and expects 200); formats
other than `uuid` are not declared anywhere in the repository and pass. -/
def checkFormat (fmt : String) (s : String) : Bool :=
  if s = "" then true
  else if fmt = "uuid" then isUUID s
  else true

/-- The string-leaf constraints of a compiled schema ("string/number leaf:
bounds, format, pattern, enum", spec §3). -/
structure StrC where
  format : Option String := none
  minLength : Option Nat := none
  maxLength : Option Nat := none
  pattern : Option (List PatternTok) := none
  enum : Option (List String) := none
deriving DecidableEq, Repr

/-- A scalar (leaf) compiled schema.  Kept as its own non-recursive type:
the repository declares arrays of scalars only (`[]string` fields), so array
item schemas are scalar. -/
inductive ScalarSchema where
  | sString (c : StrC)
  | sInteger (minimum : Option Int) (exclusiveMinimum : Bool)
             (maximum : Option Int) (exclusiveMaximum : Bool)
  | sBoolean
deriving DecidableEq, Repr

/-- The declared type name of a scalar schema, used in type-mismatch
messages. -/
def scalarTypeName : ScalarSchema → String
  | .sString _ => "string"
  | .sInteger _ _ _ _ => "integer"
  | .sBoolean => "boolean"

/-! Modelled from the spec: "CompiledSchema: normalized tree (object:
properties + required-name list; array: item schema; string/number leaf:
bounds, format, pattern, enum)" (§3).  `PropList` is the property list of an
object schema. -/
mutual
inductive CompiledSchema where
  | scalar (s : ScalarSchema)
  | sArray (item : ScalarSchema)
  | sObject (props : PropList) (required : List String)
inductive PropList where
  | nil
  | cons (name : String) (sch : CompiledSchema) (rest : PropList)
end

/-- The failed keywords of a string leaf on a string value, in checking
order.  Each failed constraint contributes one keyword. -/
def strKeywordFailures (c : StrC) (s : String) : List Keyword :=
  (match c.format with
   | some f => if checkFormat f s then [] else [.format f]
   | none => [])
  ++ (match c.minLength with
      | some k => if s.length < k then [.minLength k] else []
      | none => [])
  ++ (match c.maxLength with
      | some k => if k < s.length then [.maxLength k] else []
      | none => [])
  ++ (match c.pattern with
      | some p => if patMatches p s then [] else [.pattern (renderPattern p)]
      | none => [])
  ++ (match c.enum with
      | some vs => if s ∈ vs then [] else [.enum vs]
      | none => [])

/-- The failed keywords of an integer leaf on an integer value: minimum and
maximum with independent exclusivity flags (spec §3). -/
def intKeywordFailures (mn : Option Int) (exMn : Bool) (mx : Option Int)
    (exMx : Bool) (n : Int) : List Keyword :=
  (match mn with
   | some m => if (if exMn then m < n else m ≤ n) then [] else [.minimum m exMn]
   | none => [])
  ++ (match mx with
      | some m => if (if exMx then n < m else n ≤ m) then [] else [.maximum m exMx]
      | none => [])

/-- The failed keywords of a scalar schema on a value.  A `null` value
produces no violations (test-pinned: `format_str_arr = null` and absent-but-
null-valued fields always pass); a type mismatch suppresses the constraint
checks at the node (spec §4.4). -/
def scalarFailures : ScalarSchema → JValue → List Keyword
  | _, .null => []
  | .sString c, .str s => strKeywordFailures c s
  | .sInteger mn a mx b, .int n => intKeywordFailures mn a mx b n
  | .sBoolean, .bool _ => []
  | sch, v => [.typeMismatch (scalarTypeName sch) (typeName v)]

/-- Raw violations of a scalar schema at a node: every failed keyword is
reported at the node's own path. -/
def validateScalar (sch : ScalarSchema) (path : List Seg) (v : JValue) :
    List RawViolation :=
  (scalarFailures sch v).map (fun k => ⟨path, k⟩)

/-- Element-wise validation of an array's items, "depth-first, left-to-right
over ... array indices" (spec §4.4), appending the zero-based index segment. -/
def validateElems (item : ScalarSchema) (path : List Seg) :
    Nat → JList → List RawViolation
  | _, .nil => []
  | i, .cons v rest =>
      validateScalar item (path ++ [Seg.index i]) v
        ++ validateElems item path (i + 1) rest

/-- The `required` violations of one object level: one violation per required
name whose KEY is absent from the instance ("'required' is evaluated
independently per nesting level", spec §3).  Presence with any value,
including `""` or `null`, satisfies the check. -/
def requiredViolations (required : List String) (fs : JFields)
    (path : List Seg) : List RawViolation :=
  (required.filter (fun n => (lookupField fs n).isNone)).map
    (fun n => ⟨path ++ [Seg.field n], .required⟩)

/-! Modelled from the spec: "Validate(schema, instance) → ordered
[RawViolation].  Depth-first, left-to-right over properties then array
indices ... A type mismatch at a node suppresses further constraint checks at
that node but never suppresses sibling or ancestor checks" (§4.4).  A `null`
value at any node produces no violations (test-pinned). -/
mutual
def validateValue : CompiledSchema → List Seg → JValue → List RawViolation
  | _, _, .null => []
  | .scalar s, path, v => validateScalar s path v
  | .sArray item, path, .arr xs => validateElems item path 0 xs
  | .sArray _, path, v => [⟨path, .typeMismatch "array" (typeName v)⟩]
  | .sObject props req, path, .obj fs =>
      requiredViolations req fs path ++ validateProps props path fs
  | .sObject _ _, path, v => [⟨path, .typeMismatch "object" (typeName v)⟩]
def validateProps : PropList → List Seg → JFields → List RawViolation
  | .nil, _, _ => []
  | .cons n sch rest, path, fs =>
      (match lookupField fs n with
       | none => []
       | some v => validateValue sch (path ++ [Seg.field n]) v)
        ++ validateProps rest path fs
end

/-- The dotted/indexed rendering of one path segment. -/
def segString : Seg → String
  | .field n => n
  | .index i => toString i

/-- Dotted field-path rendering: segments joined with `.` (spec §4.5). -/
def pathString : List Seg → String
  | [] => ""
  | [s] => segString s
  | s :: rest => segString s ++ "." ++ pathString rest

/-- Quoted, comma-separated rendering of an enum list, in declared order. -/
def quoteJoin : List String → String
  | [] => ""
  | [v] => "\"" ++ v ++ "\""
  | v :: rest => "\"" ++ v ++ "\", " ++ quoteJoin rest

/-- Modelled from the spec: the deterministic keyword → message table of
§4.5, whose exact wording is part of the observable contract.  The enum
message embeds the (already location-prefixed) field path. -/
def messageFor (p : String) : Keyword → String
  | .typeMismatch e a => "Invalid type. Expected: " ++ e ++ ", given: " ++ a
  | .format f => "Does not match format \x27" ++ f ++ "\x27"
  | .minLength k => "String length must be greater than or equal to " ++ toString k
  | .maxLength k => "String length must be less than or equal to " ++ toString k
  | .pattern pt => "Does not match pattern \x27" ++ pt ++ "\x27"
  | .enum allowed => p ++ " must be one of the following: " ++ quoteJoin allowed
  | .minimum m true => "Must be greater than " ++ toString m
  | .minimum m false => "Must be greater than or equal to " ++ toString m
  | .maximum m true => "Must be less than " ++ toString m
  | .maximum m false => "Must be less than or equal to " ++ toString m
  | .required => "Is required"

/-- Modelled from the spec: ErrorTranslator path rule of §4.5 — "body
violations get path prefix `body.`; path-parameter and query-parameter
violations use the bare parameter name with no location prefix".  The caller
passes `"body."` or `""` as the location prefix. -/
def translatedKV (pre : String) (rv : RawViolation) : String × String :=
  (pre ++ pathString rv.path, messageFor (pre ++ pathString rv.path) rv.keyword)

/-- Translation of a raw-violation list into the caller-facing
path → message pairs. -/
def translateAll (pre : String) (rvs : List RawViolation) :
    List (String × String) :=
  rvs.map (translatedKV pre)

/-- A declared primitive parameter/element type. -/
inductive BaseKind where
  | bString
  | bInteger
  | bBoolean
deriving DecidableEq, Repr

/-- Modelled from the spec: the constraint set of a `ParameterDecl` /
field declaration — "optional format, constraints (min/max length, pattern,
enum values, minimum/maximum with independent exclusivity flags)" (§3).
The pattern is carried as its anchored token list (its source text is
recovered by `renderPattern`). -/
structure ScalarConstraints where
  format : Option String := none
  minLength : Option Nat := none
  maxLength : Option Nat := none
  pattern : Option (List PatternTok) := none
  enum : Option (List String) := none
  minimum : Option Int := none
  exclusiveMinimum : Bool := false
  maximum : Option Int := none
  exclusiveMaximum : Bool := false
deriving DecidableEq, Repr

/-! Modelled from the spec: "BodyDecl: recursive type descriptor — object
(named fields, each with its own kind and constraints), array (single
element kind/constraints), or scalar leaf" (§3).  Arrays carry a primitive
element kind, as in the repository's declarations (`[]string` fields); the
scalar-style constraints of an array field are declared at the field itself
(Go struct tags) and reinterpreted per-element by the builder (§4.1).
`DeclList` is a list of (name, required flag, kind, constraints) fields. -/
mutual
inductive FieldKind where
  | base (b : BaseKind)
  | array (b : BaseKind)
  | object (sub : DeclList)
inductive DeclList where
  | nil
  | cons (name : String) (required : Bool) (kind : FieldKind)
         (c : ScalarConstraints) (rest : DeclList)
end

/-- The scalar schema of a leaf declaration: strings take
format/min_length/max_length/pattern/enum, numbers take minimum/maximum with
exclusivity flags (spec §4.1). -/
def scalarSchema (b : BaseKind) (c : ScalarConstraints) : ScalarSchema :=
  match b with
  | .bString => .sString ⟨c.format, c.minLength, c.maxLength, c.pattern, c.enum⟩
  | .bInteger => .sInteger c.minimum c.exclusiveMinimum c.maximum c.exclusiveMaximum
  | .bBoolean => .sBoolean

/-- The last declared enum value, as a one-element enum list (empty input
stays empty). -/
def lastEnumValue : List String → List String
  | [] => []
  | [v] => [v]
  | _ :: v :: rest => lastEnumValue (v :: rest)

/-- The constraints an array field passes down to its elements.  All
scalar-style constraints are reused verbatim (spec §4.1 edge case) EXCEPT the
enum list, which the repository narrows to its last declared value: the test
suite expects the element message `... must be one of the following: "Bar"`
for the declared enum `Foo,Bar`, and its passing companion test sends
`["Bar"]` (src/swag-validator_test.go lines 149-162). -/
def itemConstraints (c : ScalarConstraints) : ScalarConstraints :=
  { c with enum := c.enum.map lastEnumValue }

/-- The required-name list of one object level: the names of fields declared
with a required marker (spec §4.1). -/
def requiredNames : DeclList → List String
  | .nil => []
  | .cons n true _ _ rest => n :: requiredNames rest
  | .cons _ false _ _ rest => requiredNames rest

/-! Modelled from the spec: "BuildBodySchema(typeDescriptor) →
CompiledSchema: recursively walks field declarations.  For each field:
nested object → recurse into object schema; array/list kind → recurse into
element kind, wrap as array schema; scalar leaf → attach declared
constraints ... A declared required marker adds the field name to its parent
object's required set" (§4.1). -/
mutual
def buildField : FieldKind → ScalarConstraints → CompiledSchema
  | .base b, c => .scalar (scalarSchema b c)
  | .array b, c => .sArray (scalarSchema b (itemConstraints c))
  | .object sub, _ => .sObject (buildProps sub) (requiredNames sub)
def buildProps : DeclList → PropList
  | .nil => .nil
  | .cons n _ k c rest => .cons n (buildField k c) (buildProps rest)
end

/-- Modelled from the spec: "ParameterDecl: name, location (path|query),
primitive type, optional format, constraints ..., required flag" (§3).  The
location is implicit in which schema the declaration list is compiled
into. -/
structure ParamDecl where
  name : String
  kind : BaseKind
  constraints : ScalarConstraints
  required : Bool
deriving DecidableEq, Repr

/-- One property per declared parameter, typed and constrained identically
to body leaves (spec §4.1). -/
def buildParamProps : List ParamDecl → PropList
  | [] => .nil
  | d :: rest => .cons d.name (.scalar (scalarSchema d.kind d.constraints))
      (buildParamProps rest)

/-- Modelled from the spec: "BuildParamSchema(declarations) → CompiledSchema
(object kind): one property per declared parameter ...; required flags
mirror declarations" (§4.1). -/
def buildParamSchema (ds : List ParamDecl) : CompiledSchema :=
  .sObject (buildParamProps ds) ((ds.filter (fun d => d.required)).map (fun d => d.name))

/-- Decimal digit run parser (empty and non-digit inputs fail). -/
def parseNatDigits : List Char → Option Nat
  | [] => none
  | cs => go cs 0
where
  go : List Char → Nat → Option Nat
    | [], acc => some acc
    | c :: rest, acc =>
        if c.isDigit then go rest (acc * 10 + (c.toNat - 48)) else none

/-- Integer parser for raw path/query string values (an optional leading
minus sign, code 45, then decimal digits). -/
def parseJSONInt (s : String) : Option Int :=
  match s.data with
  | c :: rest =>
      if c.toNat = 45 then (parseNatDigits rest).map (fun n => -(n : Int))
      else (parseNatDigits (c :: rest)).map (fun n => (n : Int))
  | [] => none

/-- Modelled from the spec: "path/query values are always strings prior to
type coercion, so a type mismatch is itself a reportable violation" (§3).
A raw string declared as integer (or boolean) is coerced when it parses and
left as a string otherwise, in which case validation reports the type
mismatch. -/
def coerceParamValue (k : BaseKind) (raw : String) : JValue :=
  match k with
  | .bString => .str raw
  | .bInteger =>
      match parseJSONInt raw with
      | some n => .int n
      | none => .str raw
  | .bBoolean =>
      if raw = "true" then .bool true
      else if raw = "false" then .bool false
      else .str raw

/-- The declaration of a named parameter, if any. -/
def findParamDecl : List ParamDecl → String → Option ParamDecl
  | [], _ => none
  | d :: rest, n => if d.name = n then some d else findParamDecl rest n

/-- The object fields of an extracted path/query instance. -/
def extractParamFields (ds : List ParamDecl) : List (String × String) → JFields
  | [] => .nil
  | (k, v) :: rest =>
      .cons k
        (match findParamDecl ds k with
         | some d => coerceParamValue d.kind v
         | none => .str v)
        (extractParamFields ds rest)

/-- Modelled from the spec: the RequestExtractor of §4.3 for one parameter
location — an object mapping each raw name/value pair to its (coerced)
value.  Repeated query keys (ordered string lists) are not exercised by the
repository and are not modelled. -/
def extractParams (ds : List ParamDecl) (raw : List (String × String)) : JValue :=
  .obj (extractParamFields ds raw)

/-- Modelled from the spec: the per-endpoint schema set of the SchemaCache —
"(method, path template) → \x7bpath-schema, query-schema, body-schema\x7d"
(§2), plus whether a body was declared required (§4.3). -/
structure EndpointSchemas where
  pathSchema : Option CompiledSchema
  querySchema : Option CompiledSchema
  bodySchema : Option CompiledSchema
  bodyRequired : Bool

/-- The dispatcher's verdict: `pass` invokes the next handler and emits no
response; `reject` writes the status and details map and stops the chain
(the downstream handler is never invoked). -/
inductive Outcome where
  | pass
  | reject (status : Nat) (details : List (String × String))
deriving DecidableEq, Repr

/-- Caller-facing details of one declared parameter location (undeclared
locations are skipped, spec §4.6). -/
def locationDetails (sch : Option CompiledSchema) (inst : JValue) :
    List (String × String) :=
  match sch with
  | none => []
  | some s => translateAll "" (validateValue s [] inst)

/-- Caller-facing details of the body location: prefixed with `body.`; an
absent body is skipped when the body is not required and is itself a
root-path `required` violation when it is (spec §4.3). -/
def bodyDetails (es : EndpointSchemas) (body : Option JValue) :
    List (String × String) :=
  match es.bodySchema, body with
  | none, _ => []
  | some s, some v => translateAll "body." (validateValue s [] v)
  | some _, none =>
      if es.bodyRequired then [translatedKV "body." ⟨[], .required⟩] else []

/-- All FieldErrors of the three locations merged into one map
("failures in one location never suppress validation of the other two",
spec §7). -/
def mergedDetails (es : EndpointSchemas) (pathInst queryInst : JValue)
    (body : Option JValue) : List (String × String) :=
  locationDetails es.pathSchema pathInst
    ++ locationDetails es.querySchema queryInst
    ++ bodyDetails es body

/-- Modelled from the spec: the Dispatcher state machine of §4.6 — no schema
declared → pass unconditionally; otherwise validate each declared location
independently, merge, and pass on an empty map or reject with HTTP 400
otherwise. -/
def dispatch (lookup : Option EndpointSchemas) (pathInst queryInst : JValue)
    (body : Option JValue) : Outcome :=
  match lookup with
  | none => .pass
  | some es =>
      let d := mergedDetails es pathInst queryInst body
      if d.isEmpty then .pass else .reject 400 d

/-- JSON object fields built from a path → message map. -/
def fieldsOf : List (String × String) → JFields
  | [] => .nil
  | (k, v) :: rest => .cons k (.str v) (fieldsOf rest)

/-- The rejection body `\x7b"details": map\x7d` of spec §6. -/
def detailsJson (d : List (String × String)) : JValue :=
  .obj (.cons "details" (.obj (fieldsOf d)) .nil)

/-- The HTTP response this step emits: none on pass ("the step never emits
any response when there are zero violations", spec §6), status plus
`\x7b"details": map\x7d` on rejection. -/
def renderResponse : Outcome → Option (Nat × JValue)
  | .pass => none
  | .reject s d => some (s, detailsJson d)

/-! The concrete endpoint of src/swag-validator_test.go: POST
/validate-test/\x7btest_id\x7d with a uuid-format path parameter, two
optional integer query parameters, and the `payload` body whose fields and
struct tags are transcribed below verbatim. -/

/-- The anchored pattern `^test\d$` declared by `pattern_str` and
`pattern_str_arr` (src/swag-validator_test.go lines 34-35). -/
def testPatternToks : List PatternTok :=
  [.lit 't', .lit 'e', .lit 's', .lit 't', .digit]

/-- The `nested` struct: `Foo string` with tags `json:"foo"
binding:"required"` (src/swag-validator_test.go lines 21-23). -/
def nestedDecls : DeclList :=
  .cons "foo" true (.base .bString) {} .nil

/-- The `payload` struct's field declarations, one per struct field with its
tag-declared constraints (src/swag-validator_test.go lines 25-39). -/
def payloadDecls : DeclList :=
  .cons "format_str" false (.base .bString) { format := some "uuid" } (
  .cons "format_str_arr" false (.array .bString) { format := some "uuid" } (
  .cons "min_len_str" false (.base .bString) { minLength := some 5 } (
  .cons "min_len_str_arr" false (.array .bString) { minLength := some 5 } (
  .cons "max_len_str" false (.base .bString) { maxLength := some 7 } (
  .cons "max_len_str_arr" false (.array .bString) { maxLength := some 7 } (
  .cons "enum_str" false (.base .bString) { enum := some ["Foo", "Bar"] } (
  .cons "enum_str_arr" false (.array .bString) { enum := some ["Foo", "Bar"] } (
  .cons "pattern_str" false (.base .bString) { pattern := some testPatternToks } (
  .cons "pattern_str_arr" false (.array .bString) { pattern := some testPatternToks } (
  .cons "minimum" false (.base .bInteger) { minimum := some 5 } (
  .cons "maximum" false (.base .bInteger) { maximum := some 1 } (
  .cons "nested" false (.object nestedDecls) {} .nil))))))))))))

/-- The compiled body schema of the test endpoint. -/
def testBodySchema : CompiledSchema :=
  buildField (.object payloadDecls) {}

/-- The path parameter declaration: `endpoint.Path("test_id", "string",
"uuid", "group id")` (src/swag-validator_test.go line 208). -/
def testPathDecls : List ParamDecl :=
  [⟨"test_id", .bString, { format := some "uuid" }, true⟩]

/-- The query parameter declarations: `page` and `per_page`, both integers,
not required (src/swag-validator_test.go lines 197-206). -/
def testQueryDecls : List ParamDecl :=
  [⟨"page", .bInteger, {}, false⟩, ⟨"per_page", .bInteger, {}, false⟩]

/-- The compiled schema set of the test endpoint; its body is declared
required (`endpoint.Body(payload\x7b\x7d, "Validation body", true)`). -/
def testEndpoint : EndpointSchemas :=
  ⟨some (buildParamSchema testPathDecls), some (buildParamSchema testQueryDecls),
   some testBodySchema, true⟩

/-- The all-zero UUID used by the tests (src/swag-validator_test.go line 41). -/
def testUUID : String := "00000000-0000-0000-0000-000000000000"

/-- The extracted path instance of a test request (the routed `test_id`
segment). -/
def testPathInst : JValue :=
  extractParams testPathDecls [("test_id", testUUID)]

/-- The extracted query instance of a test request (the tests send no query
string). -/
def testQueryInst : JValue :=
  extractParams testQueryDecls []

/-- `\x7b"foo": ""\x7d`: the `nested` object Go marshals for the zero
`nested` struct (`foo` present with the empty string). -/
def nestedEmptyFoo : JValue :=
  .obj (.cons "foo" (.str "") .nil)

/-- Concatenation of JSON object field lists. -/
def jfAppend : JFields → JFields → JFields
  | .nil, gs => gs
  | .cons n v rest, gs => .cons n v (jfAppend rest gs)

/-- The JSON body Go marshals for `payload\x7bFormatString: fmtStr, ...\x7d`
with every `omitempty` field zero: `format_str` and `format_str_arr` have no
`omitempty` so they are always present (the empty string and `null`
respectively, the latter overridable via `fmtArr`), as is `nested`; `extra`
holds any additional non-zero fields. -/
def marshalledBody (fmtStr : String) (fmtArr : JValue) (extra : JFields) : JValue :=
  .obj (.cons "format_str" (.str fmtStr) (.cons "format_str_arr" fmtArr
    (jfAppend extra (.cons "nested" nestedEmptyFoo .nil))))

/-- The path-parameter declaration of the spec §8 scenario: "path parameter
`uuid_id` (format uuid)". -/
def uuidPathDecls : List ParamDecl :=
  [⟨"uuid_id", .bString, { format := some "uuid" }, true⟩]

/-- An endpoint declaring only the `uuid_id` path parameter (spec §8
scenario). -/
def uuidPathEndpoint : EndpointSchemas :=
  ⟨some (buildParamSchema uuidPathDecls), none, none, false⟩

/-- A single optional integer query-parameter declaration, as in the spec §8
scenario "query parameter `int_param` (type integer)". -/
def intQueryDecl (nm : String) : List ParamDecl :=
  [⟨nm, .bInteger, {}, false⟩]

/-- An endpoint declaring only one integer query parameter (spec §8
scenario). -/
def intQueryEndpoint (nm : String) : EndpointSchemas :=
  ⟨none, some (buildParamSchema (intQueryDecl nm)), none, false⟩

/-- `n` successive runs of the validator on the identical (schema, instance)
pair. -/
def repeatedValidation (n : Nat) (sch : CompiledSchema) (v : JValue) :
    List (List RawViolation) :=
  (List.range n).map (fun _ => validateValue sch [] v)


/-! Helper lemmas about the validator and the translator. -/

/-- Every violation of a scalar schema is reported at the node's own path. -/
theorem validateScalar_path (sch : ScalarSchema) (p : List Seg) (v : JValue) :
    ∀ rv ∈ validateScalar sch p v, rv.path = p := by
  intro rv hrv
  simp only [validateScalar, List.mem_map] at hrv
  obtain ⟨k, _, rfl⟩ := hrv
  rfl

@[simp] theorem JList.get?_nil (n : Nat) : JList.get? .nil n = none := rfl

@[simp] theorem JList.get?_cons_zero (v : JValue) (rest : JList) :
    JList.get? (.cons v rest) 0 = some v := rfl

@[simp] theorem JList.get?_cons_succ (v : JValue) (rest : JList) (n : Nat) :
    JList.get? (.cons v rest) (n + 1) = rest.get? n := rfl

/-- Membership in element-wise array validation: a violation comes from some
indexed element, at the index-extended path. -/
theorem mem_validateElems (item : ScalarSchema) (p : List Seg) :
    ∀ (xs : JList) (i0 : Nat) (rv : RawViolation),
      rv ∈ validateElems item p i0 xs ↔
        ∃ j v, JList.get? xs j = some v ∧
          rv ∈ validateScalar item (p ++ [Seg.index (i0 + j)]) v
  | .nil, i0, rv => by simp [validateElems]
  | .cons v rest, i0, rv => by
    have ih := mem_validateElems item p rest (i0 + 1) rv
    simp only [validateElems, List.mem_append, ih]
    constructor
    · rintro (h | ⟨j, w, hg, hm⟩)
      · exact ⟨0, v, rfl, by simpa using h⟩
      · refine ⟨j + 1, w, by simpa using hg, ?_⟩
        have e : i0 + (j + 1) = i0 + 1 + j := by omega
        rw [e]
        exact hm
    · rintro ⟨j, w, hg, hm⟩
      cases j with
      | zero =>
        simp only [JList.get?_cons_zero, Option.some.injEq] at hg
        subst hg
        left
        simpa using hm
      | succ j =>
        right
        refine ⟨j, w, by simpa using hg, ?_⟩
        have e : i0 + 1 + j = i0 + (j + 1) := by omega
        rw [e]
        exact hm

/-- Validating a scalar-kind compiled schema is scalar validation. -/
theorem validateValue_scalar (s : ScalarSchema) (p : List Seg) (v : JValue) :
    validateValue (.scalar s) p v = validateScalar s p v := by
  cases v <;> cases s <;> rfl

/-- Unfolding of object validation on an object instance. -/
theorem validateValue_object (props : PropList) (req : List String)
    (p : List Seg) (fs : JFields) :
    validateValue (.sObject props req) p (.obj fs)
      = requiredViolations req fs p ++ validateProps props p fs := rfl

/-- Unfolding of array validation on an array instance. -/
theorem validateValue_array (item : ScalarSchema) (p : List Seg) (xs : JList) :
    validateValue (.sArray item) p (.arr xs) = validateElems item p 0 xs := rfl

/-- Membership in the required-name violations of one object level. -/
theorem mem_requiredViolations (req : List String) (fs : JFields)
    (p : List Seg) (rv : RawViolation) :
    rv ∈ requiredViolations req fs p ↔
      ∃ n ∈ req, lookupField fs n = none
        ∧ rv = ⟨p ++ [Seg.field n], .required⟩ := by
  simp only [requiredViolations, List.mem_map, List.mem_filter,
    Option.isNone_iff_eq_none]
  constructor
  · rintro ⟨n, ⟨hn, he⟩, rfl⟩
    exact ⟨n, hn, he, rfl⟩
  · rintro ⟨n, hn, he, rfl⟩
    exact ⟨n, ⟨hn, he⟩, rfl⟩

/-- Violations of compiled parameter properties live at the bare parameter
name of some declaration. -/
theorem mem_validateProps_param (fs : JFields) :
    ∀ (ds : List ParamDecl) (rv : RawViolation),
      rv ∈ validateProps (buildParamProps ds) [] fs →
      ∃ d ∈ ds, rv.path = [Seg.field d.name]
  | [], rv => by simp [buildParamProps, validateProps]
  | d :: rest, rv => by
    intro h
    simp only [buildParamProps, validateProps, List.mem_append] at h
    rcases h with h1 | h2
    · cases hl : lookupField fs d.name with
      | none => rw [hl] at h1; simp at h1
      | some v =>
        rw [hl] at h1
        have h2 : rv ∈ validateValue (.scalar (scalarSchema d.kind d.constraints))
            ([] ++ [Seg.field d.name]) v := h1
        rw [validateValue_scalar] at h2
        have hp := validateScalar_path _ _ _ rv h2
        exact ⟨d, List.mem_cons_self d rest, by simpa using hp⟩
    · obtain ⟨d2, hd2, hp⟩ := mem_validateProps_param fs rest rv h2
      exact ⟨d2, List.mem_cons_of_mem d hd2, hp⟩

/-- Violations of a compiled parameter schema on an object instance live at
the bare name of some declared parameter. -/
theorem param_violation_bare (ds : List ParamDecl) (fs : JFields)
    (rv : RawViolation) :
    rv ∈ validateValue (buildParamSchema ds) [] (.obj fs) →
    ∃ d ∈ ds, rv.path = [Seg.field d.name] := by
  intro h
  rw [buildParamSchema, validateValue_object] at h
  rcases List.mem_append.mp h with h1 | h2
  · rw [mem_requiredViolations] at h1
    obtain ⟨n, hn, _, rfl⟩ := h1
    simp only [List.mem_map, List.mem_filter] at hn
    obtain ⟨d, ⟨hd, _⟩, rfl⟩ := hn
    exact ⟨d, hd, by simp⟩
  · exact mem_validateProps_param fs ds rv h2

@[simp] theorem pathString_nil : pathString [] = "" := rfl

theorem pathString_single (s : Seg) : pathString [s] = segString s := rfl

theorem pathString_cons (a b : Seg) (t : List Seg) :
    pathString (a :: b :: t) = segString a ++ "." ++ pathString (b :: t) := rfl

/-- Appending one segment to a non-empty path appends a dot and the
segment's rendering. -/
theorem pathString_append_single (p : List Seg) (x : Seg) (hp : p ≠ []) :
    pathString (p ++ [x]) = pathString p ++ "." ++ segString x := by
  induction p with
  | nil => exact absurd rfl hp
  | cons a t ih =>
    cases t with
    | nil => rfl
    | cons b t2 =>
      have ih2 := ih (by simp)
      calc pathString ((a :: b :: t2) ++ [x])
          = segString a ++ "." ++ pathString ((b :: t2) ++ [x]) := rfl
        _ = segString a ++ "." ++ (pathString (b :: t2) ++ "." ++ segString x) := by
              rw [ih2]
        _ = pathString (a :: b :: t2) ++ "." ++ segString x := by
              rw [pathString_cons]
              simp [String.append_assoc]

/-! Claim theorems. -/

/-- C1: For every request to an endpoint with a declared schema, if the
merged violation map across path, query and body is non-empty the dispatcher
writes HTTP 400 with the JSON body carrying the map under "details" and the
downstream handler is never invoked (outcome `reject`, which stops the
chain); if the map is empty the step emits no response at all and control
passes to the next handler (outcome `pass`). -/
theorem dispatch_reject_iff_violations (es : EndpointSchemas)
    (p q : JValue) (b : Option JValue) :
    (dispatch (some es) p q b = Outcome.pass ↔ mergedDetails es p q b = [])
    ∧ (mergedDetails es p q b ≠ [] →
        dispatch (some es) p q b = Outcome.reject 400 (mergedDetails es p q b))
    ∧ (renderResponse (dispatch (some es) p q b) = none ↔
        mergedDetails es p q b = [])
    ∧ (mergedDetails es p q b ≠ [] →
        renderResponse (dispatch (some es) p q b)
          = some (400, detailsJson (mergedDetails es p q b))) := by
  rcases eq_or_ne (mergedDetails es p q b) [] with h | h <;>
    simp [dispatch, renderResponse, h, List.isEmpty_iff]

/-- Witness for C1 at the test endpoint: a body whose `format_str` violates
the uuid format is rejected with HTTP 400 and exactly that details map, and
a valid body passes. -/
theorem dispatch_reject_iff_violations_witness :
    dispatch (some testEndpoint) testPathInst testQueryInst
        (some (marshalledBody "not-a-uuid" .null .nil))
      = Outcome.reject 400
          [("body.format_str", "Does not match format \x27uuid\x27")]
    ∧ dispatch (some testEndpoint) testPathInst testQueryInst
        (some (marshalledBody testUUID .null .nil)) = Outcome.pass := by
  constructor
  · have h := (dispatch_reject_iff_violations testEndpoint testPathInst
      testQueryInst (some (marshalledBody "not-a-uuid" .null .nil))).2.1
    have hm : mergedDetails testEndpoint testPathInst testQueryInst
        (some (marshalledBody "not-a-uuid" .null .nil))
        = [("body.format_str", "Does not match format \x27uuid\x27")] := rfl
    rw [hm] at h
    exact h (by decide)
  · exact (dispatch_reject_iff_violations testEndpoint testPathInst
      testQueryInst (some (marshalledBody testUUID .null .nil))).1.mpr rfl

/-- C7: Validation is idempotent and deterministic — repeated runs of the
validator on the identical (schema, instance) pair all yield the identical
ordered violation list. -/
theorem validation_deterministic (n : Nat) (sch : CompiledSchema) (v : JValue) :
    (∀ out ∈ repeatedValidation n sch v, out = validateValue sch [] v)
    ∧ (∀ out1 ∈ repeatedValidation n sch v,
       ∀ out2 ∈ repeatedValidation n sch v, out1 = out2) := by
  constructor
  · intro out hout
    simp only [repeatedValidation, List.mem_map] at hout
    obtain ⟨_, _, rfl⟩ := hout
    rfl
  · intro out1 h1 out2 h2
    simp only [repeatedValidation, List.mem_map] at h1 h2
    obtain ⟨_, _, rfl⟩ := h1
    obtain ⟨_, _, rfl⟩ := h2
    rfl

/-- Witness for C7: among two runs on the test body schema and a concrete
valid body, the recorded outcome equals the single-run outcome. -/
theorem validation_deterministic_witness :
    ([] : List RawViolation)
      = validateValue testBodySchema [] (marshalledBody "" .null .nil) :=
  (validation_deterministic 2 testBodySchema (marshalledBody "" .null .nil)).1
    [] (by decide)

/-- C8: A string field declared with format `uuid` whose instance value is
the empty string produces no format violation; a request body carrying
`format_str = ""` (all other fields valid) passes with no details entry for
that field. -/
theorem empty_string_passes_format (f : String) (p : List Seg) :
    validateScalar (.sString ⟨some f, none, none, none, none⟩) p (.str "") = []
    ∧ checkFormat f "" = true
    ∧ dispatch (some testEndpoint) testPathInst testQueryInst
        (some (marshalledBody "" .null .nil)) = Outcome.pass
    ∧ translateAll "body." (validateValue testBodySchema []
        (marshalledBody "" .null .nil)) = [] :=
  ⟨rfl, rfl, rfl, rfl⟩

/-- C9: An array-typed field carrying per-element constraints whose instance
value is JSON null yields no violation at all — neither a type violation for
the field nor any element violations; more generally a null value passes
every schema, and a request whose `format_str_arr` is null passes. -/
theorem null_value_passes :
    (∀ (item : ScalarSchema) (p : List Seg),
        validateValue (.sArray item) p .null = [])
    ∧ (∀ (sch : CompiledSchema) (p : List Seg), validateValue sch p .null = [])
    ∧ (∀ (item : ScalarSchema) (p : List Seg), validateScalar item p .null = [])
    ∧ dispatch (some testEndpoint) testPathInst testQueryInst
        (some (marshalledBody testUUID .null .nil)) = Outcome.pass
    ∧ translateAll "body." (validateValue testBodySchema []
        (marshalledBody testUUID .null .nil)) = [] := by
  refine ⟨?_, ?_, ?_, rfl, rfl⟩
  · intro item p
    cases item <;> rfl
  · intro sch p
    cases sch with
    | scalar s => cases s <;> rfl
    | sArray item => cases item <;> rfl
    | sObject props req => rfl
  · intro item p
    cases item <;> rfl

/-- C2: caller-facing field paths are prefixed asymmetrically by location —
every body-location violation key is "body." followed by the violation's
dotted field path, while every path-parameter and query-parameter violation
key is the bare name of a declared parameter with no location prefix;
nested object segments join with "." and array elements append a zero-based
numeric segment.  Concretely (spec §8 scenario), a uuid-format path
parameter rejects the segment "10" under its bare name and passes the
all-zero uuid. -/
theorem violation_key_location_asymmetry :
    (∀ (sch : CompiledSchema) (v : JValue) (kv : String × String),
        kv ∈ translateAll "body." (validateValue sch [] v) →
        ∃ rv ∈ validateValue sch [] v, kv.1 = "body." ++ pathString rv.path)
    ∧ (∀ (ds : List ParamDecl) (fs : JFields) (kv : String × String),
        kv ∈ translateAll "" (validateValue (buildParamSchema ds) [] (.obj fs)) →
        ∃ d ∈ ds, kv.1 = d.name)
    ∧ (∀ (p : List Seg) (n : String), p ≠ [] →
        pathString (p ++ [Seg.field n]) = pathString p ++ "." ++ n)
    ∧ (∀ (p : List Seg) (i : Nat), p ≠ [] →
        pathString (p ++ [Seg.index i]) = pathString p ++ "." ++ toString i)
    ∧ dispatch (some uuidPathEndpoint)
        (extractParams uuidPathDecls [("uuid_id", "10")]) (.obj .nil) none
        = Outcome.reject 400 [("uuid_id", "Does not match format \x27uuid\x27")]
    ∧ dispatch (some uuidPathEndpoint)
        (extractParams uuidPathDecls [("uuid_id", testUUID)]) (.obj .nil) none
        = Outcome.pass := by
  refine ⟨?_, ?_, ?_, ?_, rfl, rfl⟩
  · intro sch v kv hkv
    simp only [translateAll, List.mem_map] at hkv
    obtain ⟨rv, hrv, rfl⟩ := hkv
    exact ⟨rv, hrv, rfl⟩
  · intro ds fs kv hkv
    simp only [translateAll, List.mem_map] at hkv
    obtain ⟨rv, hrv, rfl⟩ := hkv
    obtain ⟨d, hd, hp⟩ := param_violation_bare ds fs rv hrv
    refine ⟨d, hd, ?_⟩
    show "" ++ pathString rv.path = d.name
    rw [hp]
    rfl
  · intro p n hp
    exact pathString_append_single p (Seg.field n) hp
  · intro p i hp
    exact pathString_append_single p (Seg.index i) hp

/-- Witness for C2: the format violation of the "10" segment of the
uuid-format path parameter is keyed by the bare declared name. -/
theorem violation_key_location_asymmetry_witness :
    ∃ d ∈ uuidPathDecls, ("uuid_id" : String) = d.name :=
  violation_key_location_asymmetry.2.1 uuidPathDecls
    (.cons "uuid_id" (.str "10") .nil)
    ("uuid_id", "Does not match format \x27uuid\x27") (by decide)

/-- C4: For every array-typed field carrying scalar-style constraints, the
builder attaches the constraints to the element schema (never to the array
itself), each element is validated independently, every violation path is
exactly the field name followed by the zero-based element index, and such a
path occurs exactly for the offending indices. -/
theorem array_constraints_elementwise (b : BaseKind) (c : ScalarConstraints)
    (f : String) (xs : JList) :
    buildField (.array b) c = .sArray (scalarSchema b (itemConstraints c))
    ∧ validateValue (.sArray (scalarSchema b (itemConstraints c)))
        [Seg.field f] (.arr xs)
        = validateElems (scalarSchema b (itemConstraints c)) [Seg.field f] 0 xs
    ∧ (∀ rv ∈ validateElems (scalarSchema b (itemConstraints c))
          [Seg.field f] 0 xs,
        ∃ i v, JList.get? xs i = some v
          ∧ rv.path = [Seg.field f, Seg.index i]
          ∧ pathString rv.path = f ++ "." ++ toString i
          ∧ rv ∈ validateScalar (scalarSchema b (itemConstraints c))
              [Seg.field f, Seg.index i] v)
    ∧ (∀ (i : Nat) (v : JValue), JList.get? xs i = some v →
        ((∃ rv ∈ validateElems (scalarSchema b (itemConstraints c))
              [Seg.field f] 0 xs, rv.path = [Seg.field f, Seg.index i])
          ↔ validateScalar (scalarSchema b (itemConstraints c))
              [Seg.field f, Seg.index i] v ≠ [])) := by
  refine ⟨rfl, rfl, ?_, ?_⟩
  · intro rv hrv
    obtain ⟨j, w, hg, hm⟩ := (mem_validateElems _ _ xs 0 rv).mp hrv
    have hz : (0 : Nat) + j = j := by omega
    rw [hz] at hm
    have hpath := validateScalar_path _ _ _ rv hm
    refine ⟨j, w, hg, by simpa using hpath, ?_, hm⟩
    rw [hpath]
    rfl
  · intro i v hgv
    constructor
    · rintro ⟨rv, hrv, hpi⟩
      obtain ⟨j, w, hg, hm⟩ := (mem_validateElems _ _ xs 0 rv).mp hrv
      have hz : (0 : Nat) + j = j := by omega
      rw [hz] at hm
      have hpath := validateScalar_path _ _ _ rv hm
      have hij : j = i := by
        have he : ([Seg.field f] ++ [Seg.index j] : List Seg)
            = [Seg.field f, Seg.index i] := by rw [← hpath, hpi]
        simpa using he
      subst hij
      have hw : w = v := by
        have := hg.symm.trans hgv
        exact Option.some.inj this
      subst hw
      exact List.ne_nil_of_mem hm
    · intro hne
      obtain ⟨rv, hrv⟩ := List.exists_mem_of_ne_nil _ hne
      have hpath := validateScalar_path _ _ _ rv hrv
      refine ⟨rv, ?_, hpath⟩
      exact (mem_validateElems _ _ xs 0 rv).mpr ⟨i, v, hgv, by simpa using hrv⟩

/-- Witness for C4: the single too-short element of a min-length string
array is flagged at index 0 of the field. -/
theorem array_constraints_elementwise_witness :
    ∃ rv ∈ validateElems
        (scalarSchema .bString (itemConstraints { minLength := some 5 }))
        [Seg.field "min_len_str_arr"] 0 (JList.cons (.str "1234") .nil),
      rv.path = [Seg.field "min_len_str_arr", Seg.index 0] :=
  ((array_constraints_elementwise .bString { minLength := some 5 }
      "min_len_str_arr" (JList.cons (.str "1234") .nil)).2.2.2 0 (.str "1234")
      rfl).mpr (by decide)

/-- C5: For every string field declared with minimum length k (k ≥ 1), a
value of length k−1 produces the violation "String length must be greater
than or equal to k" and a value of length k produces no violation;
concretely the test body with `min_len_str = "1234"` is flagged and with
`"12345"` is not. -/
theorem min_length_boundary (k : Nat) (p : List Seg) (s : String)
    (hk : 1 ≤ k) :
    (s.length = k - 1 →
        validateScalar (.sString ⟨none, some k, none, none, none⟩) p (.str s)
          = [⟨p, .minLength k⟩])
    ∧ (s.length = k →
        validateScalar (.sString ⟨none, some k, none, none, none⟩) p (.str s)
          = [])
    ∧ messageFor (pathString p) (.minLength k)
        = "String length must be greater than or equal to " ++ toString k
    ∧ translateAll "body." (validateValue testBodySchema []
        (marshalledBody "" .null (.cons "min_len_str" (.str "1234") .nil)))
        = [("body.min_len_str",
            "String length must be greater than or equal to 5")]
    ∧ translateAll "body." (validateValue testBodySchema []
        (marshalledBody "" .null (.cons "min_len_str" (.str "12345") .nil)))
        = [] := by
  refine ⟨?_, ?_, rfl, rfl, rfl⟩
  · intro hlen
    have hlt : s.length < k := by omega
    simp [validateScalar, scalarFailures, strKeywordFailures, hlt]
  · intro hlen
    have hnlt : ¬ s.length < k := by omega
    simp [validateScalar, scalarFailures, strKeywordFailures, hnlt]

/-- Witness for C5 at k = 5 with the test strings "1234" and "12345". -/
theorem min_length_boundary_witness :
    validateScalar (.sString ⟨none, some 5, none, none, none⟩)
        [Seg.field "min_len_str"] (.str "1234")
      = [⟨[Seg.field "min_len_str"], .minLength 5⟩]
    ∧ validateScalar (.sString ⟨none, some 5, none, none, none⟩)
        [Seg.field "min_len_str"] (.str "12345") = [] :=
  ⟨(min_length_boundary 5 [Seg.field "min_len_str"] "1234" (by decide)).1
      (by decide),
   (min_length_boundary 5 [Seg.field "min_len_str"] "12345" (by decide)).2.1
      (by decide)⟩

/-- C6: For every query parameter declared with type integer, a raw value
that does not parse as an integer stays a string and yields a 400 rejection
mapping the bare parameter name to "Invalid type. Expected: integer, given:
string"; a parsing value is coerced and yields no violation. -/
theorem integer_query_param_type (nm r : String) :
    (parseJSONInt r = none →
        dispatch (some (intQueryEndpoint nm)) (.obj .nil)
          (extractParams (intQueryDecl nm) [(nm, r)]) none
          = Outcome.reject 400
              [(nm, "Invalid type. Expected: integer, given: string")])
    ∧ (∀ z : Int, parseJSONInt r = some z →
        dispatch (some (intQueryEndpoint nm)) (.obj .nil)
          (extractParams (intQueryDecl nm) [(nm, r)]) none = Outcome.pass) := by
  constructor
  · intro h
    have hinst : extractParams (intQueryDecl nm) [(nm, r)]
        = .obj (.cons nm (.str r) .nil) := by
      simp [extractParams, extractParamFields, findParamDecl, intQueryDecl,
        coerceParamValue, h]
    have hs : ∀ q : List Seg, validateScalar (.sInteger none false none false)
        q (.str r) = [⟨q, .typeMismatch "integer" "string"⟩] := fun q => rfl
    have hval : validateValue (buildParamSchema (intQueryDecl nm)) []
        (.obj (.cons nm (.str r) .nil))
        = [⟨[Seg.field nm], .typeMismatch "integer" "string"⟩] := by
      simp [intQueryDecl, buildParamSchema, buildParamProps, scalarSchema,
        validateValue_object, requiredViolations, validateProps, lookupField,
        validateValue_scalar, hs]
    have hmerged : mergedDetails (intQueryEndpoint nm) (.obj .nil)
        (.obj (.cons nm (.str r) .nil)) none
        = [(nm, "Invalid type. Expected: integer, given: string")] := by
      have hu : mergedDetails (intQueryEndpoint nm) (.obj .nil)
          (.obj (.cons nm (.str r) .nil)) none
          = [] ++ translateAll ""
              (validateValue (buildParamSchema (intQueryDecl nm)) []
                (.obj (.cons nm (.str r) .nil))) ++ [] := rfl
      rw [hu, hval]
      rfl
    have hd : dispatch (some (intQueryEndpoint nm)) (.obj .nil)
        (.obj (.cons nm (.str r) .nil)) none
        = if (mergedDetails (intQueryEndpoint nm) (.obj .nil)
              (.obj (.cons nm (.str r) .nil)) none).isEmpty
          then Outcome.pass
          else Outcome.reject 400 (mergedDetails (intQueryEndpoint nm)
            (.obj .nil) (.obj (.cons nm (.str r) .nil)) none) := rfl
    rw [hinst, hd, hmerged]
    rfl
  · intro z h
    have hinst : extractParams (intQueryDecl nm) [(nm, r)]
        = .obj (.cons nm (.int z) .nil) := by
      simp [extractParams, extractParamFields, findParamDecl, intQueryDecl,
        coerceParamValue, h]
    have hs0 : ∀ q : List Seg, validateScalar (.sInteger none false none false)
        q (.int z) = [] := fun q => rfl
    have hval : validateValue (buildParamSchema (intQueryDecl nm)) []
        (.obj (.cons nm (.int z) .nil)) = [] := by
      simp [intQueryDecl, buildParamSchema, buildParamProps, scalarSchema,
        validateValue_object, requiredViolations, validateProps, lookupField,
        validateValue_scalar, hs0]
    have hmerged : mergedDetails (intQueryEndpoint nm) (.obj .nil)
        (.obj (.cons nm (.int z) .nil)) none = [] := by
      have hu : mergedDetails (intQueryEndpoint nm) (.obj .nil)
          (.obj (.cons nm (.int z) .nil)) none
          = [] ++ translateAll ""
              (validateValue (buildParamSchema (intQueryDecl nm)) []
                (.obj (.cons nm (.int z) .nil))) ++ [] := rfl
      rw [hu, hval]
      rfl
    have hd : dispatch (some (intQueryEndpoint nm)) (.obj .nil)
        (.obj (.cons nm (.int z) .nil)) none
        = if (mergedDetails (intQueryEndpoint nm) (.obj .nil)
              (.obj (.cons nm (.int z) .nil)) none).isEmpty
          then Outcome.pass
          else Outcome.reject 400 (mergedDetails (intQueryEndpoint nm)
            (.obj .nil) (.obj (.cons nm (.int z) .nil)) none) := rfl
    rw [hinst, hd, hmerged]
    rfl

/-- Witness for C6: spec §8 scenario — `int_param=abc` rejects with the bare
key and the exact message, `int_param=10` passes. -/
theorem integer_query_param_type_witness :
    dispatch (some (intQueryEndpoint "int_param")) (.obj .nil)
        (extractParams (intQueryDecl "int_param") [("int_param", "abc")]) none
      = Outcome.reject 400
          [("int_param", "Invalid type. Expected: integer, given: string")]
    ∧ dispatch (some (intQueryEndpoint "int_param")) (.obj .nil)
        (extractParams (intQueryDecl "int_param") [("int_param", "10")]) none
      = Outcome.pass :=
  ⟨(integer_query_param_type "int_param" "abc").1 (by decide),
   (integer_query_param_type "int_param" "10").2 10 (by decide)⟩

/-- C10: The `required` constraint checks key presence only, not
non-emptiness: a required field present with an empty-string value produces
no "Is required" violation (and the whole test request passes), while an
absent key does produce one. -/
theorem required_checks_presence_only :
    (∀ (req : List String) (fs : JFields) (p : List Seg) (n : String)
        (v : JValue),
        lookupField fs n = some v →
        (⟨p ++ [Seg.field n], Keyword.required⟩ : RawViolation)
          ∉ requiredViolations req fs p)
    ∧ (∀ (req : List String) (fs : JFields) (p : List Seg) (n : String),
        n ∈ req → lookupField fs n = none →
        (⟨p ++ [Seg.field n], Keyword.required⟩ : RawViolation)
          ∈ requiredViolations req fs p)
    ∧ validateValue (buildField (.object nestedDecls) {}) [] nestedEmptyFoo = []
    ∧ dispatch (some testEndpoint) testPathInst testQueryInst
        (some (marshalledBody "" .null .nil)) = Outcome.pass
    ∧ translateAll "body." (validateValue testBodySchema []
        (.obj (.cons "format_str" (.str "") (.cons "format_str_arr" .null
          (.cons "nested" (.obj .nil) .nil)))))
        = [("body.nested.foo", "Is required")] := by
  refine ⟨?_, ?_, rfl, rfl, rfl⟩
  · intro req fs p n v hv hmem
    rw [mem_requiredViolations] at hmem
    obtain ⟨m, _, hnone, he⟩ := hmem
    have hpm : p ++ [Seg.field n] = p ++ [Seg.field m] :=
      congrArg RawViolation.path he
    have hfm : Seg.field n = Seg.field m := by
      have := List.append_cancel_left hpm
      simpa using this
    have hnm : n = m := by simpa using hfm
    rw [hnm, hnone] at hv
    exact Option.noConfusion hv
  · intro req fs p n hn hnone
    rw [mem_requiredViolations]
    exact ⟨n, hn, hnone, rfl⟩

/-- Witness for C10: `foo` required and present with the empty string is not
flagged. -/
theorem required_checks_presence_only_witness :
    (⟨[Seg.field "foo"], Keyword.required⟩ : RawViolation)
      ∉ requiredViolations ["foo"] (.cons "foo" (.str "") .nil) [] :=
  required_checks_presence_only.1 ["foo"] (.cons "foo" (.str "") .nil) []
    "foo" (.str "") rfl

/-- C3 counterexample: the claim that the translated enum message lists ALL
declared enum values (quoted, comma-separated, in declared order) is false
on the code for array-element enums.  For `enum_str_arr`, declared with enum
`Foo,Bar`, the element violation message lists only `"Bar"` — exactly what
the repository test expects — not `"Foo", "Bar"`; moreover the element
`"Foo"`, although inside the declared set, is itself a violation. -/
theorem enum_array_message_counterexample :
    translateAll "body." (validateValue testBodySchema []
        (marshalledBody "" .null
          (.cons "enum_str_arr" (.arr (.cons (.str "test") .nil)) .nil)))
      = [("body.enum_str_arr.0",
          "body.enum_str_arr.0 must be one of the following: \"Bar\"")]
    ∧ "body.enum_str_arr.0 must be one of the following: \"Bar\""
        ≠ "body.enum_str_arr.0 must be one of the following: "
            ++ quoteJoin ["Foo", "Bar"]
    ∧ validateValue testBodySchema []
        (marshalledBody "" .null
          (.cons "enum_str_arr" (.arr (.cons (.str "Foo") .nil)) .nil))
        ≠ [] := by
  refine ⟨rfl, ?_, ?_⟩ <;> decide

/-- C3 amended: for scalar enum-constrained fields the translated message is
the field path followed by " must be one of the following: " and ALL
declared enum values, quoted, comma-separated, in declared order, and a
value inside the set yields no violation; for ARRAY fields the enum
constraint is narrowed to its last declared value when moved onto the
elements, so the element message lists only that value. -/
theorem enum_translation_amended :
    (∀ (allowed : List String) (p : List Seg) (s : String),
        validateScalar (.sString ⟨none, none, none, none, some allowed⟩) p
            (.str s)
          = if s ∈ allowed then [] else [⟨p, .enum allowed⟩])
    ∧ (∀ (pstr : String) (allowed : List String),
        messageFor pstr (.enum allowed)
          = pstr ++ " must be one of the following: " ++ quoteJoin allowed)
    ∧ (∀ c : ScalarConstraints,
        (itemConstraints c).enum = c.enum.map lastEnumValue)
    ∧ (∀ (l : List String) (v : String), lastEnumValue (l ++ [v]) = [v])
    ∧ translateAll "body." (validateValue testBodySchema []
        (marshalledBody "" .null (.cons "enum_str" (.str "test") .nil)))
        = [("body.enum_str",
            "body.enum_str must be one of the following: \"Foo\", \"Bar\"")]
    ∧ validateValue testBodySchema []
        (marshalledBody "" .null (.cons "enum_str" (.str "Foo") .nil)) = []
    ∧ translateAll "body." (validateValue testBodySchema []
        (marshalledBody "" .null
          (.cons "enum_str_arr" (.arr (.cons (.str "test") .nil)) .nil)))
        = [("body.enum_str_arr.0",
            "body.enum_str_arr.0 must be one of the following: \"Bar\"")] := by
  refine ⟨?_, fun pstr allowed => rfl, fun c => rfl, ?_, rfl, rfl, rfl⟩
  · intro allowed p s
    by_cases hs : s ∈ allowed <;>
      simp [validateScalar, scalarFailures, strKeywordFailures, hs]
  · intro l v
    induction l with
    | nil => rfl
    | cons a t ih =>
      cases t with
      | nil => rfl
      | cons b t2 => simpa [lastEnumValue] using ih

end SwagValidator
